import Mathlib

/-!
A shallow embedding of the viewproxy request-composition engine and proofs
about it.  The embedding follows the Go sources: the `fragment` package
(`Definition`, `Requestable`, `UrlWithParams`), the `responseBuilder`
(`SetFragments`, `SetDuration`, `Write`), and — where the deciding Go file is
not part of the source tree (route matching, route validation, query
forwarding, the multiplexer's result aggregation, HMAC signing) — models built
from the specification, each marked `Modelled from the spec:` in its doc
comment.  Go byte slices are `List Nat` (one byte per element), Go strings are
`String`, Go maps are association lists, and Go pointer mutation is explicit
state passing: a function that mutates an argument returns the updated value.
-/

namespace Viewproxy

/-- Bytes of an ASCII string, one `Nat` per character.  This coincides with
Go's `[]byte` conversion for the ASCII content appearing in this code base. -/
def strBytes (s : String) : List Nat := s.data.map Char.toNat

/-- Splitting a character list at every separator occurrence, keeping empty
groups, exactly as Go's `strings.Split` does for a one-character separator. -/
def charSplit (sep : Char) : List Char → List (List Char)
  | [] => [[]]
  | c :: rest =>
    match charSplit sep rest with
    | [] => [[]]
    | group :: groups =>
      if c = sep then [] :: group :: groups else (c :: group) :: groups

/-- Go's `strings.Split(s, sep)` for a one-character separator. -/
def splitOnChar (s : String) (sep : Char) : List String :=
  (charSplit sep s.data).map String.mk

/-- Go's `strings.HasPrefix(s, ":")`: the first byte is a colon. -/
def startsWithColon (s : String) : Bool :=
  match s.data with
  | c :: _ => c = ':'
  | [] => false

/-- Go's `s[1:]` for the ASCII strings in play: drop the first character. -/
def dropHead (s : String) : String := ⟨s.data.drop 1⟩

namespace Fragment

/-- `fragment.Definition` from the source: a path template, its parts
(`strings.Split(path, "/")[1:]`), the preloaded base `Url`, opaque metadata
and a timing label. -/
structure Definition where
  Path : String
  routeParts : List String
  Url : String
  Metadata : List (String × String)
  TimingLabel : String
deriving Repr, DecidableEq

/-- `fragment.Define` from the source (without functional options):
`routeParts = strings.Split(path, "/")[1:]`, empty metadata. -/
def Define (path : String) : Definition :=
  { Path := path
    routeParts := (splitOnChar path '/').drop 1
    Url := ""
    Metadata := []
    TimingLabel := "" }

/-- `Definition.HasDynamicParts` from the source: some part starts with ":". -/
def Definition.HasDynamicParts (d : Definition) : Bool :=
  d.routeParts.any (fun part => startsWithColon part)

/-- `Definition.DynamicParts` from the source: the parts starting with ":". -/
def Definition.DynamicParts (d : Definition) : List String :=
  d.routeParts.filter (fun part => startsWithColon part)

end Fragment

/-- Model of Go's `net/url.URL` restricted to the fields this code base uses:
scheme, host (with port), path and raw query.  `net/url` is standard-library
code outside the repository; the model covers the simple absolute HTTP URLs
the engine builds (no user info, escaping or fragments). -/
structure URL where
  Scheme : String
  Host : String
  Path : String
  RawQuery : String
deriving Repr, DecidableEq

/-- `url.URL.String()` for the modelled fields: `scheme://host` ++ path (the
authority prefix is dropped for a fully relative URL), and `?query` only when
the raw query is non-empty. -/
def URL.render (u : URL) : String :=
  (if u.Scheme = "" && u.Host = "" then "" else u.Scheme ++ "://" ++ u.Host) ++
    u.Path ++ (if u.RawQuery = "" then "" else "?" ++ u.RawQuery)

/-- `url.Parse` for the modelled URL shapes: split off the query at the first
"?", the scheme at "://", and the path at the first "/" after the host. -/
def parseURL (s : String) : URL :=
  let qsplit := s.splitOn "?"
  let beforeQuery := qsplit.headD ""
  let query := String.intercalate "?" (qsplit.drop 1)
  match beforeQuery.splitOn "://" with
  | [] => { Scheme := "", Host := "", Path := "", RawQuery := query }
  | [pathOnly] => { Scheme := "", Host := "", Path := pathOnly, RawQuery := query }
  | scheme :: rest =>
    match (String.intercalate "://" rest).splitOn "/" with
    | [] => { Scheme := scheme, Host := "", Path := "", RawQuery := query }
    | [host] => { Scheme := scheme, Host := host, Path := "", RawQuery := query }
    | host :: pathParts =>
      { Scheme := scheme, Host := host
        Path := "/" ++ String.intercalate "/" pathParts, RawQuery := query }

/-- Go's `url.QueryEscape` keeps alphanumerics and `-_.~` unescaped. -/
def isUnreservedChar (c : Char) : Bool :=
  c.isAlphanum || c = '-' || c = '_' || c = '.' || c = '~'

/-- Lower 8 bits split into an uppercase-hex pair, as `url.QueryEscape`
emits. -/
def hexDigitUpper (n : Nat) : Char :=
  if n < 10 then Char.ofNat (48 + n) else Char.ofNat (55 + n)

/-- UTF-8 bytes of one character (standard 1-4 byte encoding). -/
def utf8Bytes (c : Char) : List Nat :=
  let n := c.toNat
  if n < 0x80 then [n]
  else if n < 0x800 then [0xc0 + n / 64, 0x80 + n % 64]
  else if n < 0x10000 then [0xe0 + n / 4096, 0x80 + n / 64 % 64, 0x80 + n % 64]
  else [0xf0 + n / 262144, 0x80 + n / 4096 % 64, 0x80 + n / 64 % 64, 0x80 + n % 64]

/-- `url.QueryEscape`: unreserved characters kept, space becomes `+`, every
other byte percent-encoded in uppercase hex. -/
def queryEscape (s : String) : String :=
  String.join (s.data.map (fun c =>
    if isUnreservedChar c then String.singleton c
    else if c = ' ' then "+"
    else String.join (utf8Bytes c |>.map (fun b =>
      "%" ++ String.singleton (hexDigitUpper (b / 16)) ++
        String.singleton (hexDigitUpper (b % 16))))))

/-- Model of Go's `url.Values`: a finite map from key to list of values,
represented as an association list.  A Go map carries no ordering, so two
association lists that are permutations of each other (with no duplicate
keys) denote the same `url.Values`. -/
def Values : Type := List (String × List String)

/-- `url.Values.Encode` from `net/url`: sort the keys, then emit
`k=escape(v)` pairs joined by `&`, the values of each key in stored order. -/
def Values.Encode (v : Values) : String :=
  let keys := ((v.map Prod.fst).mergeSort (fun a b => decide (a ≤ b))).dedup
  String.intercalate "&"
    (keys.flatMap (fun k =>
      ((List.lookup k v).getD []).map (fun x => queryEscape k ++ "=" ++ queryEscape x)))

namespace Fragment

open Viewproxy

/-- `Definition.UrlWithParams` from the source: parse `d.Url`, overwrite its
raw query with the encoded parameters, render the result. -/
def Definition.UrlWithParams (d : Definition) (parameters : Values) : String :=
  let targetUrl := parseURL d.Url
  URL.render { targetUrl with RawQuery := Values.Encode parameters }

/-- `fragment.Request` from the source: a resolved URL plus the originating
definition. -/
structure Request where
  url : String
  Definition : Definition
deriving Repr, DecidableEq

/-- The path-building loop inside `Definition.Requestable`: for every part
write "/", then either the literal part or, for a ":name" part, the parameter
bound to "name"; a missing parameter aborts with the source's error string. -/
def buildPath : List String → List (String × String) → String → Except String String
  | [], _, _ => .ok ""
  | part :: rest, parameters, dPath =>
    if startsWithColon part then
      match List.lookup (dropHead part) parameters with
      | some replacement =>
        match buildPath rest parameters dPath with
        | .ok restPath => .ok ("/" ++ replacement ++ restPath)
        | .error e => .error e
      | none => .error ("no url replacement found for " ++ part ++ " in " ++ dPath)
    else
      match buildPath rest parameters dPath with
      | .ok restPath => .ok ("/" ++ part ++ restPath)
      | .error e => .error e

/-- `Definition.Requestable` from the source.  Go's `target = &*target` takes
the address of `*target` back, which for a pointer is the pointer itself, so
— despite the source comment "clone the url" — the caller's `url.URL` is
aliased, not copied, and the assignment `target.Path = path.String()` is
visible to the caller.  The mutation is embedded by returning the updated URL
next to the built `Request`. -/
def Definition.Requestable (d : Definition) (target : URL)
    (parameters : List (String × String)) : Except String (URL × Request) :=
  match buildPath d.routeParts parameters d.Path with
  | .error e => .error e
  | .ok path =>
    let target' := { target with Path := path }
    .ok (target', { url := URL.render target', Definition := d })

end Fragment

namespace Multiplexer

/-- Modelled from the spec: `multiplexer.Result` (its Go file is not in the
source tree; `response_builder.go` and the tests consume its `Body`, `Url`
and `StatusCode` fields) — "`url`, `statusCode`, `body` (raw bytes,
decompressed), `duration`, `error` (nil on success)". -/
structure Result where
  Url : String
  StatusCode : Nat
  Body : List Nat
  Duration : Nat
  Err : Option String
deriving Repr, DecidableEq

end Multiplexer

/-- `responseBuilder` from the source: the accumulated body bytes and the
status code to write (200 at construction). -/
structure ResponseBuilder where
  body : List Nat
  StatusCode : Nat
deriving Repr, DecidableEq

/-- `newResponseBuilder` from the source: empty body, status 200. -/
def newResponseBuilder : ResponseBuilder := { body := [], StatusCode := 200 }

/-- `bytes.Replace(s, old, new, 1)` from the Go standard library: replace the
first occurrence of `old` (an empty `old` matches at the start). -/
def listReplaceFirst : List Nat → List Nat → List Nat → List Nat
  | [], old, new => if old.isPrefixOf ([] : List Nat) then new else []
  | b :: rest, old, new =>
    if old.isPrefixOf (b :: rest) then new ++ (b :: rest).drop old.length
    else b :: listReplaceFirst rest old new

/-- The generic legacy content placeholder token from
`responseBuilder.SetFragments`. -/
def viewProxyContentTag : List Nat := strBytes "<view-proxy-content></view-proxy-content>"

/-- The timing placeholder token from `responseBuilder.SetDuration`. -/
def viewProxyTimingTag : List Nat := strBytes "<view-proxy-timing></view-proxy-timing>"

/-- `responseBuilder.SetLayout` from the source. -/
def ResponseBuilder.SetLayout (rb : ResponseBuilder) (result : Multiplexer.Result) :
    ResponseBuilder :=
  { rb with body := result.Body }

/-- `responseBuilder.SetFragments` from the source: concatenate the result
bodies in list order; if the current body is empty the concatenation becomes
the body, otherwise it replaces the first `<view-proxy-content>` token. -/
def ResponseBuilder.SetFragments (rb : ResponseBuilder)
    (results : List Multiplexer.Result) : ResponseBuilder :=
  let contentHtml := (results.map Multiplexer.Result.Body).flatten
  if rb.body.length = 0 then { rb with body := contentHtml }
  else { rb with body := listReplaceFirst rb.body viewProxyContentTag contentHtml }

/-- `responseBuilder.SetDuration` from the source: substitute the timing token
with the decimal text of the duration. -/
def ResponseBuilder.SetDuration (rb : ResponseBuilder) (duration : Nat) : ResponseBuilder :=
  { rb with body := listReplaceFirst rb.body viewProxyTimingTag (strBytes (toString duration)) }

namespace Gzip

/-- One step of the bit-reflected CRC-32 (IEEE polynomial 0xEDB88320), the
checksum `compress/gzip` writes. -/
def crc32Bit (crc : Nat) : Nat :=
  if crc % 2 = 1 then (crc / 2) ^^^ 0xEDB88320 else crc / 2

/-- Fold one byte into the CRC-32 state. -/
def crc32Byte (crc b : Nat) : Nat :=
  crc32Bit (crc32Bit (crc32Bit (crc32Bit (crc32Bit (crc32Bit (crc32Bit (crc32Bit (crc ^^^ b % 256))))))))

/-- CRC-32 (IEEE) of a byte list. -/
def crc32 (data : List Nat) : Nat :=
  (data.foldl crc32Byte 0xFFFFFFFF) ^^^ 0xFFFFFFFF

/-- A 32-bit value as four little-endian bytes. -/
def le32 (n : Nat) : List Nat :=
  [n % 256, n / 256 % 256, n / 65536 % 256, n / 16777216 % 256]

/-- Modelled from the spec: the DEFLATE stream `compress/gzip` (standard
library, outside the repository) produces, modelled in its stored-block form —
a lossless encoding the spec relies on only through the round-trip property of
"transparent decompress-then-recompress".  Each block is a 1-byte final flag
(stored type), the chunk length and its complement in little endian, then the
raw chunk of at most 65535 bytes. -/
def deflateStored (data : List Nat) : List Nat :=
  if h : data.length ≤ 65535 then
    let len := data.length
    1 :: len % 256 :: len / 256 :: (65535 - len) % 256 :: (65535 - len) / 256 :: data
  else
    0 :: 255 :: 255 :: 0 :: 0 :: (data.take 65535 ++ deflateStored (data.drop 65535))
termination_by data.length
decreasing_by
  simp only [List.length_drop]
  omega

/-- Modelled from the spec: the inverse stored-block DEFLATE reader — parse
blocks until the final flag, rejecting trailing garbage and truncation. -/
def inflateStored (s : List Nat) : Option (List Nat) :=
  match s with
  | bfinal :: len0 :: len1 :: _nlen0 :: _nlen1 :: rest =>
    let len := len0 + 256 * len1
    if rest.length < len then none
    else
      let chunk := rest.take len
      let rest' := rest.drop len
      if bfinal = 1 then (if rest' = [] then some chunk else none)
      else
        match inflateStored rest' with
        | some more => some (chunk ++ more)
        | none => none
  | _ => none
termination_by s.length
decreasing_by
  simp only [List.length_drop, List.length_cons]
  omega

/-- The fixed gzip member header `compress/gzip` writes for an empty name and
zero modification time: magic bytes, deflate method, no flags, zero mtime,
default extra flags, unknown OS. -/
def gzipHeader : List Nat := [0x1f, 0x8b, 0x08, 0x00, 0, 0, 0, 0, 0x00, 0xff]

/-- Modelled from the spec: gzip compression as performed by
`gzip.NewWriter(...).Write` — header, deflate stream, then CRC-32 and length
modulo 2^32 in little endian. -/
def gzipCompress (data : List Nat) : List Nat :=
  gzipHeader ++ deflateStored data ++ le32 (crc32 data) ++ le32 (data.length % 4294967296)

/-- Modelled from the spec: gzip decompression as performed by
`gzip.NewReader` on the members `gzipCompress` produces — parse the header,
inflate the deflate stream, and check the CRC-32 and length trailer. -/
def gzipDecompress (s : List Nat) : Option (List Nat) :=
  match s with
  | 0x1f :: 0x8b :: 0x08 :: 0x00 :: _m0 :: _m1 :: _m2 :: _m3 :: _xfl :: _os :: rest =>
    if rest.length < 8 then none
    else
      let deflatePart := rest.take (rest.length - 8)
      let trailer := rest.drop (rest.length - 8)
      match inflateStored deflatePart with
      | some payload =>
        if trailer = le32 (crc32 payload) ++ le32 (payload.length % 4294967296) then
          some payload
        else none
      | none => none
  | _ => none

end Gzip

/-- `responseBuilder.Write` from the source: write the status code, then the
body — gzip-compressed when the response's `Content-Encoding` header is
"gzip", verbatim otherwise.  The header map is reduced to the one header the
function reads. -/
def ResponseBuilder.Write (rb : ResponseBuilder) (contentEncoding : String) :
    Nat × List Nat :=
  if contentEncoding = "gzip" then (rb.StatusCode, Gzip.gzipCompress rb.body)
  else (rb.StatusCode, rb.body)

/-- Modelled from the spec (`route.go` is not in the source tree; its tests
are): a `Route` holds the inbound URL pattern and its parts, split on "/" the
way `route_test.go` splits the provided URL. -/
structure Route where
  Path : String
  parts : List String
deriving Repr, DecidableEq

/-- Modelled from the spec: `newRoute` splits the pattern on "/". -/
def newRoute (path : String) : Route :=
  { Path := path, parts := splitOnChar path '/' }

/-- Modelled from the spec: one pattern segment against one path segment — "a
literal segment must match exactly; a `:name` segment matches any single
non-empty segment". -/
def matchSeg (pat seg : String) : Bool :=
  if startsWithColon pat then seg ≠ "" else pat = seg

/-- Modelled from the spec: `route.matchParts` — "a pattern with N segments
only matches paths with exactly N segments", compared segment by segment. -/
def Route.matchParts (r : Route) (pathParts : List String) : Bool :=
  r.parts.length = pathParts.length &&
    (r.parts.zip pathParts).all (fun p => matchSeg p.1 p.2)

/-- Modelled from the spec: `route.parametersFor` — every `:name` pattern
segment binds the corresponding path segment value under key `name`. -/
def Route.parametersFor (r : Route) (pathParts : List String) : List (String × String) :=
  (r.parts.zip pathParts).filterMap (fun p =>
    if startsWithColon p.1 then some (dropHead p.1, p.2) else none)

/-- Modelled from the spec: a node of a route's fragment tree for validation —
the flat source `fragment.Definition` predates the tree/validation-flag form
the tests use (`WithChild`, `WithoutValidation`), so the node carries the
definition, the named children and whether validation is enabled for the
subtree. -/
inductive FragmentNode where
  | node (definition : Fragment.Definition) (children : List (String × FragmentNode))
      (validate : Bool)

/-- The definition at a tree node. -/
def FragmentNode.definition : FragmentNode → Fragment.Definition
  | .node d _ _ => d

/-- Equality of two dynamic-part name sets, as lists of ":name" parts. -/
def sameDynamicParts (a b : List String) : Bool :=
  a.all (fun x => b.contains x) && b.all (fun x => a.contains x)

/-- The validation verdict for one enabled node against the route: on a
dynamic route the node's dynamic-part set must equal the route's; on a static
route the node must be static. -/
def dynPartsOk (routeDyn : List String) (d : Fragment.Definition) : Bool :=
  if routeDyn.isEmpty then !d.HasDynamicParts
  else sameDynamicParts d.DynamicParts routeDyn

/-- The error text validation reports for one offending node, naming the
fragment path and whether the route side of the mismatch is static or
dynamic, as asserted by `TestRoute_Validate`. -/
def validationMessage (routeDyn : List String) (routePath : String)
    (d : Fragment.Definition) : String :=
  (if routeDyn.isEmpty then "static route " else "dynamic route ") ++ routePath ++
    " has mismatched fragment route " ++ d.Path

mutual
/-- Modelled from the spec: validation of one fragment subtree — skip a
subtree whose validation is disabled, otherwise report the first mismatched
node's message, recursing through the children. -/
def checkNode (routeDyn : List String) (routePath : String) :
    FragmentNode → Option String
  | .node d children validate =>
    if !validate then none
    else if !dynPartsOk routeDyn d then some (validationMessage routeDyn routePath d)
    else checkChildren routeDyn routePath children

/-- First validation error among a list of named children. -/
def checkChildren (routeDyn : List String) (routePath : String) :
    List (String × FragmentNode) → Option String
  | [] => none
  | c :: rest =>
    match checkNode routeDyn routePath c.2 with
    | some e => some e
    | none => checkChildren routeDyn routePath rest
end

/-- First validation error among a list of root nodes. -/
def checkAll (routeDyn : List String) (routePath : String) :
    List FragmentNode → Option String
  | [] => none
  | n :: rest =>
    match checkNode routeDyn routePath n with
    | some e => some e
    | none => checkAll routeDyn routePath rest

/-- Modelled from the spec: `route.Validate` — collect the route's dynamic
segment names and check the layout tree and every legacy flat fragment;
`(valid, err)` in Go becomes the first error, `none` meaning valid. -/
def validateRoute (r : Route) (layout : FragmentNode)
    (fragments : List FragmentNode) : Option String :=
  let routeDyn := r.parts.filter (fun part => startsWithColon part)
  checkAll routeDyn r.Path (layout :: fragments)

mutual
/-- The definitions validation actually inspects in a subtree: none under a
disabled node, otherwise the node's own definition and, recursively, its
children's. -/
def enabledDefs : FragmentNode → List Fragment.Definition
  | .node d children validate =>
    if validate then d :: enabledDefsList children else []

/-- The inspected definitions under a list of named children. -/
def enabledDefsList : List (String × FragmentNode) → List Fragment.Definition
  | [] => []
  | c :: rest => enabledDefs c.2 ++ enabledDefsList rest
end

/-- Modelled from the spec (`server.go` is not in the source tree): the query
forwarding policy of §4.3 step 1 — "explicit route parameters take precedence
over same-named query parameters from the original inbound URL, all other
inbound query parameters are forwarded unchanged". -/
def forwardedParams (routeParams inboundQuery : List (String × String)) :
    List (String × String) :=
  routeParams ++ inboundQuery.filter (fun q => (List.lookup q.1 routeParams).isNone)

namespace Multiplexer

/-- A fetch fails on a transport error or a non-2xx origin status (§4.3 error
policy). -/
def resultFailed (r : Result) : Bool :=
  r.Err.isSome || !(200 ≤ r.StatusCode && r.StatusCode ≤ 299)

/-- `ResultError` as the tests consume it: the typed error wrapping the
offending `Result`. -/
structure ResultError where
  Result : Result
deriving Repr, DecidableEq

/-- Modelled from the spec: `ResultSet` — "mapping from fragment identity
(slice index) to Result, plus a single first-error slot". -/
structure ResultSet where
  results : List Result
  firstError : Option ResultError
deriving Repr, DecidableEq

/-- Modelled from the spec: what one origin fetch yields for one fragment —
resolved url, status, body, duration, and a transport error if the Tripper
itself failed. -/
structure FetchOutcome where
  url : String
  statusCode : Nat
  body : List Nat
  duration : Nat
  transportError : Option String
deriving Repr, DecidableEq

/-- The `Result` recorded for one fetch outcome. -/
def fetchResult (o : FetchOutcome) : Result :=
  { Url := o.url, StatusCode := o.statusCode, Body := o.body
    Duration := o.duration, Err := o.transportError }

/-- Modelled from the spec: the multiplexer's result aggregation — every
fetch is awaited and recorded (sibling fetches are not cancelled on failure),
and the single first-error slot is populated, first-write-wins, with the
first failing fragment; the concurrent first-write-wins race is modelled by
declaration order. -/
def collectResults (fetches : List FetchOutcome) : ResultSet :=
  let results := fetches.map fetchResult
  { results := results
    firstError := (results.find? resultFailed).map (fun r => { Result := r }) }

/-- Modelled from the spec: the top-level handler outcome the hooks observe —
the returned error is exactly the first-error slot, exposed to
`AroundResponse` through the request context together with the `ResultSet`,
and the response status is an error status exactly when it is populated
(§7). -/
def handleCompose (fetches : List FetchOutcome) : Nat × ResultSet × Option ResultError :=
  let rs := collectResults fetches
  (if rs.firstError.isSome then 500 else 200, rs, rs.firstError)

end Multiplexer

/-- The per-child content placeholder token, parameterized by the child's
registered name, as it appears in the tests' layout bodies. -/
def fragmentTag (name : String) : List Nat :=
  strBytes ("<viewproxy-fragment id=\"" ++ name ++ "\"></viewproxy-fragment>")

/-- Modelled from the spec: a fragment body as the multiplexer records it —
"gzip-decompressed transparently if the origin signaled a gzip
Content-Encoding, so that placeholder substitution always operates on plain
text". -/
def originBody (gzipEncoded : Bool) (raw : List Nat) : Option (List Nat) :=
  if gzipEncoded then Gzip.gzipDecompress raw else some raw

/-- Modelled from the spec: §4.3 step 4 — substitute a child's composed body
into the parent body at the placeholder carrying the child's name. -/
def substituteChild (parentBody : List Nat) (name : String) (childBody : List Nat) :
    List Nat :=
  listReplaceFirst parentBody (fragmentTag name) childBody

/-- Modelled from the spec: the fetch-compose-write pipeline for a layout
with one named child, as exercised by `TestSupportsGzip` — decode both origin
bodies, substitute the child, and let `responseBuilder.Write` (from the
source) encode the final response. -/
def composePipeline (name : String) (layoutGz fragGz : Bool)
    (layoutRaw fragRaw : List Nat) (outEncoding : String) : Option (Nat × List Nat) :=
  match originBody layoutGz layoutRaw, originBody fragGz fragRaw with
  | some layoutText, some fragText =>
    let composed := substituteChild layoutText name fragText
    some (ResponseBuilder.Write { newResponseBuilder with body := composed } outEncoding)
  | _, _ => none

namespace Hmac

/-- Truncation to 32 bits. -/
def w32 (n : Nat) : Nat := n % 4294967296

/-- 32-bit right rotation. -/
def rotr (x n : Nat) : Nat := w32 ((x >>> n) ||| (x <<< (32 - n)))

/-- The eight 32-bit words of a SHA-256 state. -/
structure Hash8 where
  a : Nat
  b : Nat
  c : Nat
  d : Nat
  e : Nat
  f : Nat
  g : Nat
  h : Nat
deriving Repr, DecidableEq

/-- SHA-256 initial state (the standard initial hash words, in decimal). -/
def sha256H0 : Hash8 :=
  ⟨1779033703, 3144134277, 1013904242, 2773480762, 1359893119, 2600822924, 528734635, 1541459225⟩

/-- SHA-256 round constants (the standard sixty-four words, in decimal). -/
def sha256K : List Nat :=
  [   1116352408, 1899447441, 3049323471, 3921009573, 961987163, 1508970993,
   2453635748, 2870763221, 3624381080, 310598401, 607225278, 1426881987,
   1925078388, 2162078206, 2614888103, 3248222580, 3835390401, 4022224774,
   264347078, 604807628, 770255983, 1249150122, 1555081692, 1996064986,
   2554220882, 2821834349, 2952996808, 3210313671, 3336571891, 3584528711,
   113926993, 338241895, 666307205, 773529912, 1294757372, 1396182291,
   1695183700, 1986661051, 2177026350, 2456956037, 2730485921, 2820302411,
   3259730800, 3345764771, 3516065817, 3600352804, 4094571909, 275423344,
   430227734, 506948616, 659060556, 883997877, 958139571, 1322822218,
   1537002063, 1747873779, 1955562222, 2024104815, 2227730452, 2361852424,
   2428436474, 2756734187, 3204031479, 3329325298]

/-- Four bytes as one big-endian 32-bit word. -/
def beWord (b0 b1 b2 b3 : Nat) : Nat :=
  b0 % 256 * 16777216 + b1 % 256 * 65536 + b2 % 256 * 256 + b3 % 256

/-- A 32-bit word as four big-endian bytes. -/
def be32 (n : Nat) : List Nat := [n / 16777216 % 256, n / 65536 % 256, n / 256 % 256, n % 256]

/-- A 64-bit value as eight big-endian bytes. -/
def be64 (n : Nat) : List Nat :=
  [n / 72057594037927936 % 256, n / 281474976710656 % 256, n / 1099511627776 % 256,
   n / 4294967296 % 256, n / 16777216 % 256, n / 65536 % 256, n / 256 % 256, n % 256]

/-- The first sixteen message-schedule words of one 64-byte chunk. -/
def chunkWords : List Nat → List Nat
  | b0 :: b1 :: b2 :: b3 :: rest => beWord b0 b1 b2 b3 :: chunkWords rest
  | _ => []

/-- SHA-256 small sigma 0. -/
def smallS0 (x : Nat) : Nat := rotr x 7 ^^^ rotr x 18 ^^^ (x >>> 3)

/-- SHA-256 small sigma 1. -/
def smallS1 (x : Nat) : Nat := rotr x 17 ^^^ rotr x 19 ^^^ (x >>> 10)

/-- Extension step count, then the schedule words: structural recursion on a
step counter so the definition also computes inside the kernel. -/
def extendWordsAux : Nat → List Nat → List Nat
  | 0, w => w
  | steps + 1, w =>
    if w.length ≥ 64 then w
    else
      let len := w.length
      extendWordsAux steps (w ++ [w32 (w.getD (len - 16) 0 + smallS0 (w.getD (len - 15) 0) +
        w.getD (len - 7) 0 + smallS1 (w.getD (len - 2) 0))])

/-- Extend the sixteen schedule words to sixty-four. -/
def extendWords (w : List Nat) : List Nat := extendWordsAux 64 w

/-- One SHA-256 compression round. -/
def sha256Round (st : Hash8) (k w : Nat) : Hash8 :=
  let s1 := rotr st.e 6 ^^^ rotr st.e 11 ^^^ rotr st.e 25
  let ch := (st.e &&& st.f) ^^^ ((0xFFFFFFFF ^^^ st.e) &&& st.g)
  let temp1 := w32 (st.h + s1 + ch + k + w)
  let s0 := rotr st.a 2 ^^^ rotr st.a 13 ^^^ rotr st.a 22
  let maj := (st.a &&& st.b) ^^^ (st.a &&& st.c) ^^^ (st.b &&& st.c)
  let temp2 := w32 (s0 + maj)
  ⟨w32 (temp1 + temp2), st.a, st.b, st.c, w32 (st.d + temp1), st.e, st.f, st.g⟩

/-- Compress one 64-byte chunk into the running state. -/
def compressChunk (st : Hash8) (chunk : List Nat) : Hash8 :=
  let w := extendWords (chunkWords chunk)
  let r := (List.range 64).foldl (fun acc i => sha256Round acc (sha256K.getD i 0) (w.getD i 0)) st
  ⟨w32 (st.a + r.a), w32 (st.b + r.b), w32 (st.c + r.c), w32 (st.d + r.d),
   w32 (st.e + r.e), w32 (st.f + r.f), w32 (st.g + r.g), w32 (st.h + r.h)⟩

/-- SHA-256 padding: a 0x80 byte, zeros to 56 mod 64, then the bit length in
big endian. -/
def sha256Pad (msg : List Nat) : List Nat :=
  let len := msg.length
  msg ++ 0x80 :: List.replicate ((64 + 56 - (len + 1) % 64) % 64) 0 ++ be64 (8 * len)

/-- Chunking with a structural step counter (each step consumes at least one
byte, so the input length bounds the steps). -/
def chunks64Aux : Nat → List Nat → List (List Nat)
  | 0, _ => []
  | steps + 1, s => if s.isEmpty then [] else s.take 64 :: chunks64Aux steps (s.drop 64)

/-- Split a byte list into 64-byte chunks. -/
def chunks64 (s : List Nat) : List (List Nat) := chunks64Aux s.length s

/-- SHA-256 of a byte list, as 32 bytes. -/
def sha256 (msg : List Nat) : List Nat :=
  let fin := (chunks64 (sha256Pad msg)).foldl compressChunk sha256H0
  be32 fin.a ++ be32 fin.b ++ be32 fin.c ++ be32 fin.d ++
    be32 fin.e ++ be32 fin.f ++ be32 fin.g ++ be32 fin.h

/-- HMAC-SHA256 of a message under a key (RFC 2104, block size 64). -/
def hmacSha256 (key msg : List Nat) : List Nat :=
  let k1 := if key.length > 64 then sha256 key else key
  let k0 := k1 ++ List.replicate (64 - k1.length) 0
  sha256 ((k0.map (fun b => b ^^^ 0x5c)) ++ sha256 ((k0.map (fun b => b ^^^ 0x36)) ++ msg))

/-- One lowercase hex digit. -/
def hexDigitLower (n : Nat) : Char :=
  if n < 10 then Char.ofNat (48 + n) else Char.ofNat (87 + n)

/-- `hex.EncodeToString`: lowercase hex of a byte list. -/
def hexEncode (bs : List Nat) : String :=
  ⟨bs.flatMap (fun b => [hexDigitLower (b % 256 / 16), hexDigitLower (b % 16)])⟩

end Hmac

/-- An outbound fragment request as the signing layer sees it: the resolved
path, the raw query, and the headers already set. -/
structure OutboundRequest where
  path : String
  rawQuery : String
  headers : List (String × String)
deriving Repr, DecidableEq

/-- Modelled from the spec §4.4, first canonical form: the byte string
`<path>?<rawQuery>,<timestamp>`, or `<path>,<timestamp>` when no query is
present. -/
def signedStringSpecForm (path rawQuery ts : String) : String :=
  (if rawQuery = "" then path else path ++ "?" ++ rawQuery) ++ "," ++ ts

/-- Modelled from the spec: signing an outbound request with the spec's
query-including canonical form — set the timestamp header and the
`Authorization` header to the hex HMAC-SHA256 of the canonical string under
the shared secret. -/
def signOutboundSpecForm (secret ts : String) (r : OutboundRequest) : OutboundRequest :=
  { r with headers :=
      ("Authorization", Hmac.hexEncode (Hmac.hmacSha256 (strBytes secret)
        (strBytes (signedStringSpecForm r.path r.rawQuery ts)))) ::
      ("X-Authorization-Time", ts) :: r.headers }

/-- Modelled from the spec §4.4 under the canonical form the repository's own
verifier fixes: the byte string `<path>,<timestamp>`, the query string
excluded. -/
def signOutbound (secret ts : String) (r : OutboundRequest) : OutboundRequest :=
  { r with headers :=
      ("Authorization", Hmac.hexEncode (Hmac.hmacSha256 (strBytes secret)
        (strBytes (r.path ++ "," ++ ts)))) ::
      ("X-Authorization-Time", ts) :: r.headers }

/-- The verifying origin of `TestFragmentSendsVerifiableHmacWhenSet`
(`server_test.go:237-258`): read the timestamp header, recompute the hex
HMAC-SHA256 over `r.URL.Path ++ "," ++ timestamp`, and require both headers
non-empty and the `Authorization` header equal to the recomputation. -/
def originVerifies (secret : String) (r : OutboundRequest) : Bool :=
  match List.lookup "X-Authorization-Time" r.headers,
      List.lookup "Authorization" r.headers with
  | some time, some auth =>
    time ≠ "" && auth ≠ "" &&
      auth = Hmac.hexEncode (Hmac.hmacSha256 (strBytes secret)
        (strBytes (r.path ++ "," ++ time)))
  | _, _ => false

/-! Lemmas about path resolution (`fragment.Definition.Requestable`). -/

namespace Fragment

/-- What one part contributes to a resolved path: its parameter value for a
dynamic part, itself otherwise. -/
def substPart (parameters : List (String × String)) (part : String) : String :=
  if startsWithColon part then (List.lookup (dropHead part) parameters).getD "" else part

/-- Concatenation of a list of strings, in order. -/
def joinAll : List String → String
  | [] => ""
  | s :: rest => s ++ joinAll rest

theorem buildPath_ok_iff (parts : List String) (ps : List (String × String)) (dPath : String) :
    (∃ s, buildPath parts ps dPath = Except.ok s) ↔
      ∀ part ∈ parts, startsWithColon part = true →
        (List.lookup (dropHead part) ps).isSome = true := by
  induction parts with
  | nil => simp [buildPath]
  | cons part rest ih =>
    by_cases hc : startsWithColon part = true
    · cases hl : List.lookup (dropHead part) ps with
      | none =>
        simp only [buildPath, hc, if_pos, hl]
        constructor
        · rintro ⟨s, hs⟩; cases hs
        · intro h
          have := h part (by simp) hc
          rw [hl] at this
          cases this
      | some v =>
        simp only [buildPath, hc, if_pos, hl]
        cases hr : buildPath rest ps dPath with
        | ok s =>
          simp only [hr]
          constructor
          · intro _ p hp hcp
            rcases List.mem_cons.mp hp with h | h
            · subst h; rw [hl]; rfl
            · exact (ih.mp ⟨s, hr⟩) p h hcp
          · intro _; exact ⟨_, rfl⟩
        | error e =>
          simp only [hr]
          constructor
          · rintro ⟨s, hs⟩; cases hs
          · intro h
            rcases ih.mpr (fun p hp hcp => h p (List.mem_cons_of_mem _ hp) hcp) with ⟨s, hs⟩
            rw [hs] at hr; cases hr
    · simp only [buildPath, hc, if_neg, Bool.not_eq_true]
      cases hr : buildPath rest ps dPath with
      | ok s =>
        simp only [hr]
        constructor
        · intro _ p hp hcp
          rcases List.mem_cons.mp hp with h | h
          · subst h; exact absurd hcp hc
          · exact (ih.mp ⟨s, hr⟩) p h hcp
        · intro _; exact ⟨_, rfl⟩
      | error e =>
        simp only [hr]
        constructor
        · rintro ⟨s, hs⟩; cases hs
        · intro h
          rcases ih.mpr (fun p hp hcp => h p (List.mem_cons_of_mem _ hp) hcp) with ⟨s, hs⟩
          rw [hs] at hr; cases hr

theorem buildPath_ok_eq (parts : List String) (ps : List (String × String)) (dPath s : String)
    (h : buildPath parts ps dPath = Except.ok s) :
    s = joinAll (parts.map (fun part => "/" ++ substPart ps part)) := by
  induction parts generalizing s with
  | nil =>
    simp only [buildPath] at h
    cases h
    rfl
  | cons part rest ih =>
    by_cases hc : startsWithColon part = true
    · cases hl : List.lookup (dropHead part) ps with
      | none => simp only [buildPath, hc, if_pos, hl] at h; cases h
      | some v =>
        simp only [buildPath, hc, if_pos, hl] at h
        cases hr : buildPath rest ps dPath with
        | ok s' =>
          rw [hr] at h
          cases h
          simp [joinAll, substPart, hc, hl, ih s' hr, String.append_assoc]
        | error e => rw [hr] at h; cases h
    · simp only [buildPath, hc, if_neg, Bool.not_eq_true] at h
      cases hr : buildPath rest ps dPath with
      | ok s' =>
        rw [hr] at h
        cases h
        simp [joinAll, substPart, hc, ih s' hr, String.append_assoc]
      | error e => rw [hr] at h; cases h

theorem buildPath_error_eq (parts : List String) (ps : List (String × String)) (dPath e : String)
    (h : buildPath parts ps dPath = Except.error e) :
    ∃ part ∈ parts, startsWithColon part = true ∧ List.lookup (dropHead part) ps = none ∧
      e = "no url replacement found for " ++ part ++ " in " ++ dPath := by
  induction parts generalizing e with
  | nil => cases h
  | cons part rest ih =>
    by_cases hc : startsWithColon part = true
    · cases hl : List.lookup (dropHead part) ps with
      | none =>
        simp only [buildPath, hc, if_pos, hl] at h
        injection h with he
        exact ⟨part, by simp, hc, hl, he.symm⟩
      | some v =>
        simp only [buildPath, hc, if_pos, hl] at h
        cases hr : buildPath rest ps dPath with
        | ok s' => rw [hr] at h; cases h
        | error e2 =>
          rw [hr] at h
          injection h with he
          subst he
          rcases ih e2 hr with ⟨p, hp, h1, h2, h3⟩
          exact ⟨p, List.mem_cons_of_mem _ hp, h1, h2, h3⟩
    · simp only [buildPath, hc, if_neg, Bool.not_eq_true] at h
      cases hr : buildPath rest ps dPath with
      | ok s' => rw [hr] at h; cases h
      | error e2 =>
        rw [hr] at h
        injection h with he
        subst he
        rcases ih e2 hr with ⟨p, hp, h1, h2, h3⟩
        exact ⟨p, List.mem_cons_of_mem _ hp, h1, h2, h3⟩

end Fragment

/-- Claim C7: for every fragment `Definition` and parameters map,
`Definition.Requestable` succeeds iff the map supplies a value for every
dynamic segment name of the definition's path, and on success the produced
URL's path has every dynamic segment replaced by its parameter value; if any
dynamic segment has no supplied parameter, resolution returns an error naming
the missing part and the definition's path, and no `Requestable`. -/
theorem requestable_resolution (d : Fragment.Definition) (target : URL)
    (ps : List (String × String)) :
    ((∃ out, d.Requestable target ps = Except.ok out) ↔
      ∀ part ∈ d.routeParts, startsWithColon part = true →
        (List.lookup (dropHead part) ps).isSome = true)
    ∧ (∀ target' req, d.Requestable target ps = Except.ok (target', req) →
        target'.Path =
          Fragment.joinAll (d.routeParts.map (fun part => "/" ++ Fragment.substPart ps part)))
    ∧ (∀ e, d.Requestable target ps = Except.error e →
        ∃ part ∈ d.routeParts, startsWithColon part = true ∧
          List.lookup (dropHead part) ps = none ∧
          e = "no url replacement found for " ++ part ++ " in " ++ d.Path) := by
  refine ⟨⟨?_, ?_⟩, ?_, ?_⟩
  · rintro ⟨out, hout⟩
    simp only [Fragment.Definition.Requestable] at hout
    cases hb : Fragment.buildPath d.routeParts ps d.Path with
    | error e => rw [hb] at hout; cases hout
    | ok s => exact (Fragment.buildPath_ok_iff d.routeParts ps d.Path).mp ⟨s, hb⟩
  · intro h
    rcases (Fragment.buildPath_ok_iff d.routeParts ps d.Path).mpr h with ⟨s, hs⟩
    exact ⟨_, by simp only [Fragment.Definition.Requestable]; rw [hs]⟩
  · intro target' req h
    simp only [Fragment.Definition.Requestable] at h
    cases hb : Fragment.buildPath d.routeParts ps d.Path with
    | error e => rw [hb] at h; cases h
    | ok s =>
      rw [hb] at h
      cases h
      exact Fragment.buildPath_ok_eq d.routeParts ps d.Path s hb
  · intro e h
    simp only [Fragment.Definition.Requestable] at h
    cases hb : Fragment.buildPath d.routeParts ps d.Path with
    | error e2 =>
      rw [hb] at h
      injection h with he
      subst he
      exact Fragment.buildPath_error_eq d.routeParts ps d.Path e2 hb
    | ok s => rw [hb] at h; cases h

/-- Witness for C7 at the concrete definition `/body/:name`: resolution
succeeds with `name` bound and, with no parameters, fails with the source's
error string naming the missing part and the path. -/
theorem requestable_resolution_witness :
    (∃ out, (Fragment.Define "/body/:name").Requestable
        ⟨"http", "localhost:1234", "", ""⟩ [("name", "world")] = Except.ok out)
    ∧ (∃ part ∈ (Fragment.Define "/body/:name").routeParts,
        startsWithColon part = true ∧
        List.lookup (dropHead part) ([] : List (String × String)) = none ∧
        "no url replacement found for :name in /body/:name" =
          "no url replacement found for " ++ part ++ " in " ++
            (Fragment.Define "/body/:name").Path) :=
  ⟨(requestable_resolution (Fragment.Define "/body/:name")
      ⟨"http", "localhost:1234", "", ""⟩ [("name", "world")]).1.mpr (by decide),
   (requestable_resolution (Fragment.Define "/body/:name")
      ⟨"http", "localhost:1234", "", ""⟩ []).2.2 _ (by rfl)⟩

/-- Claim C10: a successful `Definition.Requestable` call leaves the caller's
`url.URL` object (aliased by Go's `target = &*target`, which does not clone)
with its `Path` overwritten by the resolved fragment path and every other
field unchanged, the `Request` aliasing the unchanged definition. -/
theorem requestable_mutates_target (d : Fragment.Definition) (target : URL)
    (ps : List (String × String)) (target' : URL) (req : Fragment.Request)
    (h : d.Requestable target ps = Except.ok (target', req)) :
    target' = { target with
        Path := Fragment.joinAll (d.routeParts.map (fun part => "/" ++ Fragment.substPart ps part)) }
    ∧ req.Definition = d ∧ req.url = URL.render target' := by
  simp only [Fragment.Definition.Requestable] at h
  cases hb : Fragment.buildPath d.routeParts ps d.Path with
  | error e => rw [hb] at h; cases h
  | ok s =>
    rw [hb] at h
    cases h
    have hs := Fragment.buildPath_ok_eq d.routeParts ps d.Path s hb
    subst hs
    exact ⟨rfl, rfl, rfl⟩

/-- Witness for C10: the concrete call that resolves `/body/:name` against
`http://localhost:1234?q=1` with `name=world` hands back the caller's URL
with only `Path` overwritten (scheme, host and query intact). -/
theorem requestable_mutates_target_witness :
    ({ Scheme := "http", Host := "localhost:1234", Path := "/body/world", RawQuery := "q=1" } : URL)
      = { ({ Scheme := "http", Host := "localhost:1234", Path := "", RawQuery := "q=1" } : URL) with
          Path := Fragment.joinAll ((Fragment.Define "/body/:name").routeParts.map
            (fun part => "/" ++ Fragment.substPart [("name", "world")] part)) }
    ∧ ({ url := "http://localhost:1234/body/world?q=1"
         Definition := Fragment.Define "/body/:name" } : Fragment.Request).Definition
        = Fragment.Define "/body/:name"
    ∧ ({ url := "http://localhost:1234/body/world?q=1"
         Definition := Fragment.Define "/body/:name" } : Fragment.Request).url
        = URL.render ⟨"http", "localhost:1234", "/body/world", "q=1"⟩ :=
  requestable_mutates_target (Fragment.Define "/body/:name")
    ⟨"http", "localhost:1234", "", "q=1"⟩ [("name", "world")]
    ⟨"http", "localhost:1234", "/body/world", "q=1"⟩
    { url := "http://localhost:1234/body/world?q=1", Definition := Fragment.Define "/body/:name" }
    (by rfl)

theorem listReplaceFirst_of_isPrefixOf (s old new : List Nat)
    (h : old.isPrefixOf s = true) :
    listReplaceFirst s old new = new ++ s.drop old.length := by
  cases s with
  | nil =>
    have hold : old = [] := by
      cases old with
      | nil => rfl
      | cons b t => simp [List.isPrefixOf] at h
    subst hold
    simp [listReplaceFirst]
  | cons b rest => simp [listReplaceFirst, h]

theorem listReplaceFirst_first_occurrence (pre tag post new : List Nat)
    (hfirst : ∀ i < pre.length, tag.isPrefixOf ((pre ++ tag ++ post).drop i) = false) :
    listReplaceFirst (pre ++ tag ++ post) tag new = pre ++ new ++ post := by
  induction pre with
  | nil =>
    simp only [List.nil_append]
    rw [listReplaceFirst_of_isPrefixOf _ _ _
      (List.isPrefixOf_iff_prefix.mpr (List.prefix_append _ _))]
    rw [List.drop_left]
  | cons b pre' ih =>
    have h0 := hfirst 0 (by simp)
    simp only [List.drop_zero, List.cons_append] at h0
    have h0' : ¬ tag <+: b :: (pre' ++ tag ++ post) := by
      intro hp
      have hp' := List.isPrefixOf_iff_prefix.mpr hp
      rw [hp'] at h0
      simp at h0
    have harm : listReplaceFirst ((b :: pre') ++ tag ++ post) tag new
        = b :: listReplaceFirst (pre' ++ tag ++ post) tag new := by
      have h0r : ¬ tag <+: b :: (pre' ++ (tag ++ post)) := by
        simpa [List.append_assoc] using h0'
      simp [List.cons_append, listReplaceFirst, h0r]
    rw [harm, ih (fun i hi => by
      have := hfirst (i + 1) (by simp only [List.length_cons]; omega)
      simpa using this)]
    simp

/-- Claim C9: in legacy flat mode the response builder concatenates the
fragment result bodies in list order and substitutes the concatenation as a
single block at the one generic `<view-proxy-content>` placeholder of the
layout body. -/
theorem legacy_fragments_substitution (rb : ResponseBuilder)
    (results : List Multiplexer.Result) (pre post : List Nat)
    (hbody : rb.body = pre ++ viewProxyContentTag ++ post)
    (hfirst : ∀ i < pre.length,
      viewProxyContentTag.isPrefixOf ((pre ++ viewProxyContentTag ++ post).drop i) = false) :
    (rb.SetFragments results).body =
      pre ++ (results.map Multiplexer.Result.Body).flatten ++ post := by
  have ht : viewProxyContentTag.length ≠ 0 := by decide
  have hne : ¬ rb.body.length = 0 := by
    rw [hbody]; simp only [List.length_append]; omega
  simp only [ResponseBuilder.SetFragments, if_neg hne]
  rw [hbody]
  exact listReplaceFirst_first_occurrence pre viewProxyContentTag post _ hfirst

/-- Witness for C9: the legacy layout `<html><view-proxy-content>...</html>`
with fragment bodies `<body>`, `hello world`, `</body>` composes to the
concatenation substituted at the placeholder. -/
theorem legacy_fragments_substitution_witness :
    (ResponseBuilder.SetFragments
        { body := strBytes "<html><view-proxy-content></view-proxy-content></html>", StatusCode := 200 }
        [{ Url := "/header", StatusCode := 200, Body := strBytes "<body>", Duration := 1, Err := none },
         { Url := "/body", StatusCode := 200, Body := strBytes "hello world", Duration := 1, Err := none },
         { Url := "/footer", StatusCode := 200, Body := strBytes "</body>", Duration := 1, Err := none }]).body
      = strBytes "<html>" ++
          ([{ Url := "/header", StatusCode := 200, Body := strBytes "<body>", Duration := 1, Err := none },
            { Url := "/body", StatusCode := 200, Body := strBytes "hello world", Duration := 1, Err := none },
            { Url := "/footer", StatusCode := 200, Body := strBytes "</body>", Duration := 1, Err := none }].map
              Multiplexer.Result.Body).flatten ++ strBytes "</html>" :=
  legacy_fragments_substitution
    { body := strBytes "<html><view-proxy-content></view-proxy-content></html>", StatusCode := 200 }
    _ (strBytes "<html>") (strBytes "</html>") (by decide) (by decide)

namespace Gzip

theorem inflateStored_deflateStored (d : List Nat) :
    inflateStored (deflateStored d) = some d := by
  rw [deflateStored]
  by_cases h : d.length ≤ 65535
  · rw [dif_pos h]
    rw [inflateStored]
    have hlen : d.length % 256 + 256 * (d.length / 256) = d.length := Nat.mod_add_div _ _
    simp only [hlen, Nat.lt_irrefl, if_false, List.take_length, List.drop_length,
      if_pos, Nat.one_ne_zero]
  · rw [dif_neg h]
    rw [inflateStored]
    have hgt : 65535 < d.length := Nat.lt_of_not_le h
    have htl : (d.take 65535).length = 65535 := by
      simp [List.length_take, Nat.min_eq_left (Nat.le_of_lt hgt)]
    have hrl : 65535 ≤ (d.take 65535 ++ deflateStored (d.drop 65535)).length := by
      simp [List.length_append, htl]
    have ih := inflateStored_deflateStored (d.drop 65535)
    simp only [show (255 : Nat) + 256 * 255 = 65535 from rfl]
    rw [if_neg (by omega)]
    rw [List.take_left' htl, List.drop_left' htl]
    simp only [ih]
    simp [List.take_append_drop]
termination_by d.length
decreasing_by
  simp only [List.length_drop]
  omega

theorem gzip_roundtrip (d : List Nat) : gzipDecompress (gzipCompress d) = some d := by
  unfold gzipCompress
  simp only [gzipHeader, List.cons_append, List.nil_append]
  rw [gzipDecompress]
  have hD : (deflateStored d ++ le32 (crc32 d) ++ le32 (d.length % 4294967296)).length
      = (deflateStored d).length + 8 := by
    simp [List.length_append, le32]
  rw [if_neg (by omega)]
  have hsub : (deflateStored d ++ le32 (crc32 d) ++ le32 (d.length % 4294967296)).length - 8
      = (deflateStored d).length := by omega
  rw [hsub]
  rw [List.append_assoc]
  rw [List.take_left, List.drop_left]
  simp [inflateStored_deflateStored]

end Gzip

/-- Claim C5: gzip handling round-trips — for gzip-encoded origin responses,
placeholder substitution operates on the decompressed texts, and with the
outbound `Content-Encoding` set to gzip `responseBuilder.Write` re-compresses
the composed body, so decompressing the final client-facing response yields
exactly the composed uncompressed text. -/
theorem gzip_roundtrip_composition (name : String) (layoutText fragText : List Nat) :
    composePipeline name true true (Gzip.gzipCompress layoutText)
        (Gzip.gzipCompress fragText) "gzip"
      = some (200, Gzip.gzipCompress (substituteChild layoutText name fragText))
    ∧ Gzip.gzipDecompress (Gzip.gzipCompress (substituteChild layoutText name fragText))
      = some (substituteChild layoutText name fragText) := by
  constructor
  · simp [composePipeline, originBody, Gzip.gzip_roundtrip, ResponseBuilder.Write,
      newResponseBuilder]
  · exact Gzip.gzip_roundtrip _

theorem lookup_append_of_some {β : Type} {l₁ l₂ : List (String × β)} {k : String} {v : β}
    (h : List.lookup k l₁ = some v) : List.lookup k (l₁ ++ l₂) = some v := by
  induction l₁ with
  | nil => cases h
  | cons p rest ih =>
    obtain ⟨k', v'⟩ := p
    simp only [List.lookup, List.cons_append] at h ⊢
    cases hk : k == k' with
    | true => rw [hk] at h; exact h
    | false => rw [hk] at h; exact ih h

theorem lookup_append_of_none {β : Type} {l₁ l₂ : List (String × β)} {k : String}
    (h : List.lookup k l₁ = none) : List.lookup k (l₁ ++ l₂) = List.lookup k l₂ := by
  induction l₁ with
  | nil => rfl
  | cons p rest ih =>
    obtain ⟨k', v'⟩ := p
    simp only [List.lookup, List.cons_append] at h ⊢
    cases hk : k == k' with
    | true => rw [hk] at h; cases h
    | false => rw [hk] at h; exact ih h

theorem lookup_filter_keeps {β : Type} (q : List (String × β)) (p : String × β → Bool)
    (k : String) (hkeep : ∀ e ∈ q, e.1 = k → p e = true) :
    List.lookup k (q.filter p) = List.lookup k q := by
  induction q with
  | nil => rfl
  | cons e rest ih =>
    obtain ⟨k', v'⟩ := e
    by_cases hk : k = k'
    · subst hk
      have hp := hkeep (k, v') (by simp) rfl
      simp [List.filter, hp, List.lookup]
    · have hbeq : (k == k') = false := by simp [hk]
      cases hp : p (k', v') with
      | true =>
        simp only [List.filter, hp, List.lookup, hbeq]
        exact ih (fun e he hek => hkeep e (List.mem_cons_of_mem _ he) hek)
      | false =>
        simp only [List.filter, hp, List.lookup, hbeq]
        exact ih (fun e he hek => hkeep e (List.mem_cons_of_mem _ he) hek)

/-- Claim C4: for every forwarded fragment request, a name bound by the route
resolves to the route-bound path parameter value, not the same-named inbound
query parameter, while every inbound query parameter under a name the route
does not bind is forwarded unchanged. -/
theorem query_param_precedence (routeParams inboundQuery : List (String × String))
    (k : String) :
    ((List.lookup k routeParams).isSome = true →
      List.lookup k (forwardedParams routeParams inboundQuery) = List.lookup k routeParams)
    ∧ (List.lookup k routeParams = none →
      List.lookup k (forwardedParams routeParams inboundQuery) = List.lookup k inboundQuery) := by
  constructor
  · intro h
    rcases Option.isSome_iff_exists.mp h with ⟨v, hv⟩
    rw [forwardedParams, lookup_append_of_some hv, hv]
  · intro h
    rw [forwardedParams, lookup_append_of_none h]
    apply lookup_filter_keeps
    intro e _ hek
    simp [hek, h]

/-- Witness for C4, the spec's concrete scenario: on route `/hello/:name` with
inbound `/hello/world?important=true&name=override`, origins see `name=world`
(route-bound value wins) and `important=true` (forwarded unchanged). -/
theorem query_param_precedence_witness :
    List.lookup "name"
        (forwardedParams [("name", "world")] [("important", "true"), ("name", "override")])
      = List.lookup "name" [("name", "world")]
    ∧ List.lookup "important"
        (forwardedParams [("name", "world")] [("important", "true"), ("name", "override")])
      = List.lookup "important" [("important", "true"), ("name", "override")] :=
  ⟨(query_param_precedence [("name", "world")] [("important", "true"), ("name", "override")]
      "name").1 (by decide),
   (query_param_precedence [("name", "world")] [("important", "true"), ("name", "override")]
      "important").2 (by decide)⟩

/-- Claim C1: the multiplexer's top-level error is non-nil iff some fragment
fetch failed (transport error or non-2xx status); it wraps the offending
fragment's `Result`, which carries that fragment's resolved url and status
code and sits in the `ResultSet` next to the recorded results of every
sibling fetch; the `ResultSet` and error reach the `AroundResponse` hook
unchanged, and the response status reflects the failure. -/
theorem multiplexer_first_error_surfaced (fetches : List Multiplexer.FetchOutcome) :
    ((Multiplexer.handleCompose fetches).2.2 = (Multiplexer.collectResults fetches).firstError)
    ∧ ((Multiplexer.collectResults fetches).firstError.isSome = true
        ↔ ∃ r ∈ (Multiplexer.collectResults fetches).results,
            Multiplexer.resultFailed r = true)
    ∧ (∀ e, (Multiplexer.collectResults fetches).firstError = some e →
        e.Result ∈ (Multiplexer.collectResults fetches).results
          ∧ Multiplexer.resultFailed e.Result = true)
    ∧ ((Multiplexer.handleCompose fetches).2.1 = Multiplexer.collectResults fetches)
    ∧ ((Multiplexer.collectResults fetches).firstError.isSome = true →
        (Multiplexer.handleCompose fetches).1 = 500)
    ∧ ((Multiplexer.collectResults fetches).firstError = none →
        (Multiplexer.handleCompose fetches).1 = 200)
    ∧ (∀ o ∈ fetches, Multiplexer.fetchResult o ∈ (Multiplexer.collectResults fetches).results) := by
  refine ⟨rfl, ?_, ?_, rfl, ?_, ?_, ?_⟩
  · simp only [Multiplexer.collectResults, Option.isSome_map']
    exact List.find?_isSome
  · intro e he
    simp only [Multiplexer.collectResults, Option.map_eq_some'] at he
    rcases he with ⟨r, hr, hre⟩
    subst hre
    exact ⟨List.mem_of_find?_eq_some hr, List.find?_some hr⟩
  · intro h
    simp only [Multiplexer.handleCompose, h, if_pos]
  · intro h
    simp only [Multiplexer.handleCompose, h, Option.isSome_none, Bool.false_eq_true,
      if_false]
  · intro o ho
    exact List.mem_map_of_mem _ ho

/-- Witness for C1, the spec's concrete scenario: the `body` fragment fails
with a 404 while `header` and `footer` succeed — the surfaced error wraps the
body fragment's resolved url and status 404, the response status is 500, and
the sibling results (with their durations) are still recorded. -/
theorem multiplexer_first_error_surfaced_witness :
    (({ Result := Multiplexer.fetchResult
          ({ url := "http://origin/definitely_missing_and_not_defined?name=world"
             statusCode := 404, body := strBytes "target: 404 not found", duration := 3
             transportError := none }) } : Multiplexer.ResultError).Result
        ∈ (Multiplexer.collectResults
            [({ url := "http://origin/header?name=world", statusCode := 200
                body := strBytes "<body>", duration := 1, transportError := none }),
             ({ url := "http://origin/definitely_missing_and_not_defined?name=world"
                statusCode := 404, body := strBytes "target: 404 not found", duration := 3
                transportError := none }),
             ({ url := "http://origin/footer?name=world", statusCode := 200
                body := strBytes "</body>", duration := 2, transportError := none })]).results
      ∧ Multiplexer.resultFailed
          (({ Result := Multiplexer.fetchResult
                ({ url := "http://origin/definitely_missing_and_not_defined?name=world"
                   statusCode := 404, body := strBytes "target: 404 not found", duration := 3
                   transportError := none }) } : Multiplexer.ResultError).Result) = true)
    ∧ (Multiplexer.handleCompose
        [({ url := "http://origin/header?name=world", statusCode := 200
            body := strBytes "<body>", duration := 1, transportError := none }),
         ({ url := "http://origin/definitely_missing_and_not_defined?name=world"
            statusCode := 404, body := strBytes "target: 404 not found", duration := 3
            transportError := none }),
         ({ url := "http://origin/footer?name=world", statusCode := 200
            body := strBytes "</body>", duration := 2, transportError := none })]).1 = 500
    ∧ Multiplexer.fetchResult
        ({ url := "http://origin/header?name=world", statusCode := 200
           body := strBytes "<body>", duration := 1, transportError := none })
      ∈ (Multiplexer.collectResults
          [({ url := "http://origin/header?name=world", statusCode := 200
              body := strBytes "<body>", duration := 1, transportError := none }),
           ({ url := "http://origin/definitely_missing_and_not_defined?name=world"
              statusCode := 404, body := strBytes "target: 404 not found", duration := 3
              transportError := none }),
           ({ url := "http://origin/footer?name=world", statusCode := 200
              body := strBytes "</body>", duration := 2, transportError := none })]).results :=
  ⟨(multiplexer_first_error_surfaced _).2.2.1 _ (by rfl),
   (multiplexer_first_error_surfaced _).2.2.2.2.1 (by rfl),
   (multiplexer_first_error_surfaced _).2.2.2.2.2.2 _ (by simp)⟩

theorem lookup_perm {β : Type} {l₁ l₂ : List (String × β)} (h : l₁.Perm l₂) :
    (l₁.map Prod.fst).Nodup → ∀ k, List.lookup k l₁ = List.lookup k l₂ := by
  induction h with
  | nil => intro _ _; rfl
  | cons x h ih =>
    intro nd k
    obtain ⟨k', v'⟩ := x
    simp only [List.lookup]
    cases hk : k == k' with
    | true => rfl
    | false =>
      exact ih (by simpa using (List.nodup_cons.mp (by simpa using nd)).2) k
  | swap x y l =>
    intro nd k
    obtain ⟨kx, vx⟩ := x
    obtain ⟨ky, vy⟩ := y
    have hyx : ky ≠ kx := by
      simp only [List.map_cons, List.nodup_cons, List.mem_cons] at nd
      exact fun he => nd.1 (Or.inl he)
    simp only [List.lookup]
    cases hk1 : k == ky with
    | true =>
      cases hk2 : k == kx with
      | true => exact absurd ((eq_of_beq hk1).symm.trans (eq_of_beq hk2)) hyx
      | false => rfl
    | false => cases hk2 : k == kx with
      | true => rfl
      | false => rfl
  | trans h₁ h₂ ih₁ ih₂ =>
    intro nd k
    exact (ih₁ nd k).trans (ih₂ (((h₁.map Prod.fst).nodup_iff).mp nd) k)

theorem Values.Encode_perm (v₁ v₂ : Values) (h : List.Perm v₁ v₂)
    (nd : (v₁.map Prod.fst).Nodup) : Values.Encode v₁ = Values.Encode v₂ := by
  have hkperm : ((v₁.map Prod.fst).mergeSort (fun a b => decide (a ≤ b))).Perm
      ((v₂.map Prod.fst).mergeSort (fun a b => decide (a ≤ b))) :=
    ((List.mergeSort_perm _ _).trans (h.map Prod.fst)).trans
      (List.mergeSort_perm _ _).symm
  have hkeys : (v₁.map Prod.fst).mergeSort (fun a b => decide (a ≤ b))
      = (v₂.map Prod.fst).mergeSort (fun a b => decide (a ≤ b)) :=
    List.eq_of_perm_of_sorted hkperm (List.sorted_mergeSort' _) (List.sorted_mergeSort' _)
  have hlk : ∀ k, List.lookup k v₁ = List.lookup k v₂ := lookup_perm h nd
  unfold Values.Encode
  rw [hkeys]
  have hfun : (fun k => ((List.lookup k v₁).getD []).map
        (fun x => queryEscape k ++ "=" ++ queryEscape x))
      = (fun k => ((List.lookup k v₂).getD []).map
        (fun x => queryEscape k ++ "=" ++ queryEscape x)) := by
    funext k
    rw [hlk k]
  rw [hfun]

/-- Claim C8: requestable resolution is deterministic and idempotent —
re-resolving a `Definition` against the URL object the first (mutating) call
handed back, with the same parameters, yields the byte-identical result, and
`UrlWithParams` depends only on the `url.Values` map contents (two
association lists denoting the same map encode identically). -/
theorem requestable_idempotent (d : Fragment.Definition) (target : URL)
    (ps : List (String × String)) (v₁ v₂ : Values) (hperm : List.Perm v₁ v₂)
    (hnd : (v₁.map Prod.fst).Nodup) :
    (∀ target' req, d.Requestable target ps = Except.ok (target', req) →
      d.Requestable target' ps = Except.ok (target', req))
    ∧ d.UrlWithParams v₁ = d.UrlWithParams v₂ := by
  constructor
  · intro target' req h
    simp only [Fragment.Definition.Requestable] at h ⊢
    cases hb : Fragment.buildPath d.routeParts ps d.Path with
    | error e => rw [hb] at h; cases h
    | ok s =>
      rw [hb] at h
      cases h
      rfl
  · simp only [Fragment.Definition.UrlWithParams]
    rw [Values.Encode_perm v₁ v₂ hperm hnd]

/-- Witness for C8: re-resolving `/body/:name` against the mutated URL gives
the identical result, and two orderings of the same `url.Values` map encode
to the same `UrlWithParams` string. -/
theorem requestable_idempotent_witness :
    ((Fragment.Define "/body/:name").Requestable
        ⟨"http", "localhost:1234", "/body/world", "q=1"⟩ [("name", "world")]
      = Except.ok (⟨"http", "localhost:1234", "/body/world", "q=1"⟩,
          { url := "http://localhost:1234/body/world?q=1"
            Definition := Fragment.Define "/body/:name" }))
    ∧ (Fragment.Define "/body/:name").UrlWithParams [("b", ["2"]), ("a", ["1"])]
      = (Fragment.Define "/body/:name").UrlWithParams [("a", ["1"]), ("b", ["2"])] :=
  ⟨(requestable_idempotent (Fragment.Define "/body/:name")
      ⟨"http", "localhost:1234", "", "q=1"⟩ [("name", "world")]
      [("b", ["2"]), ("a", ["1"])] [("a", ["1"]), ("b", ["2"])]
      (List.Perm.swap _ _ _) (by decide)).1
      ⟨"http", "localhost:1234", "/body/world", "q=1"⟩
      { url := "http://localhost:1234/body/world?q=1"
        Definition := Fragment.Define "/body/:name" } (by rfl),
   (requestable_idempotent (Fragment.Define "/body/:name")
      ⟨"http", "localhost:1234", "", "q=1"⟩ [("name", "world")]
      [("b", ["2"]), ("a", ["1"])] [("a", ["1"]), ("b", ["2"])]
      (List.Perm.swap _ _ _) (by decide)).2⟩

/-- Counterexample to C2 as stated: for pattern `/hello/:name` and inbound
path `/hello/` the segment counts agree and every literal segment matches,
yet `matchParts` fails, because a `:name` segment only matches a non-empty
segment (spec §4.1). -/
theorem route_match_empty_dynamic_cex :
    (newRoute "/hello/:name").parts.length = (splitOnChar "/hello/" '/').length
    ∧ (∀ p ∈ (newRoute "/hello/:name").parts.zip (splitOnChar "/hello/" '/'),
        startsWithColon p.1 = false → p.1 = p.2)
    ∧ (newRoute "/hello/:name").matchParts (splitOnChar "/hello/" '/') = false := by
  refine ⟨by decide, by decide, by decide⟩

/-- Claim C2 (amended): if pattern and path have the same number of segments,
every literal pattern segment equals the corresponding path segment, and
every path segment standing for a `:name` pattern segment is non-empty, then
`matchParts` succeeds and `parametersFor` binds each `:name` to the
corresponding path segment value; and whenever the segment counts differ,
`matchParts` fails. -/
theorem route_match_characterization (r : Route) (pathParts : List String) :
    (r.parts.length = pathParts.length →
      (∀ p ∈ r.parts.zip pathParts, startsWithColon p.1 = false → p.1 = p.2) →
      (∀ p ∈ r.parts.zip pathParts, startsWithColon p.1 = true → p.2 ≠ "") →
      r.matchParts pathParts = true
        ∧ ∀ p ∈ r.parts.zip pathParts, startsWithColon p.1 = true →
            (dropHead p.1, p.2) ∈ r.parametersFor pathParts)
    ∧ (r.parts.length ≠ pathParts.length → r.matchParts pathParts = false) := by
  constructor
  · intro hlen hlit hdyn
    constructor
    · simp only [Route.matchParts, Bool.and_eq_true, decide_eq_true_eq]
      refine ⟨hlen, ?_⟩
      rw [List.all_eq_true]
      intro p hp
      by_cases hc : startsWithColon p.1 = true
      · simp [matchSeg, hc, hdyn p hp hc]
      · simp only [Bool.not_eq_true] at hc
        simp only [matchSeg, hc, Bool.false_eq_true, if_false, decide_eq_true_eq]
        exact hlit p hp hc
    · intro p hp hc
      simp only [Route.parametersFor, List.mem_filterMap]
      exact ⟨p, hp, by simp [hc]⟩
  · intro hne
    simp [Route.matchParts, hne]

/-- Witness for C2 (amended): `/hello/:name` matches `/hello/world` binding
`name` to `world`, and fails against the longer `/hello/world/wow`. -/
theorem route_match_characterization_witness :
    ((newRoute "/hello/:name").matchParts (splitOnChar "/hello/world" '/') = true
      ∧ ∀ p ∈ (newRoute "/hello/:name").parts.zip (splitOnChar "/hello/world" '/'),
          startsWithColon p.1 = true →
            (dropHead p.1, p.2)
              ∈ (newRoute "/hello/:name").parametersFor (splitOnChar "/hello/world" '/'))
    ∧ (newRoute "/hello/:name").matchParts (splitOnChar "/hello/world/wow" '/') = false :=
  ⟨(route_match_characterization (newRoute "/hello/:name")
      (splitOnChar "/hello/world" '/')).1 (by decide) (by decide) (by decide),
   (route_match_characterization (newRoute "/hello/:name")
      (splitOnChar "/hello/world/wow" '/')).2 (by decide)⟩

mutual
theorem checkNode_spec (routeDyn : List String) (routePath : String) (n : FragmentNode) :
    (checkNode routeDyn routePath n = none ↔
      ∀ d ∈ enabledDefs n, dynPartsOk routeDyn d = true)
    ∧ (∀ e, checkNode routeDyn routePath n = some e →
      ∃ d ∈ enabledDefs n, dynPartsOk routeDyn d = false
        ∧ e = validationMessage routeDyn routePath d) := by
  cases n with
  | node d children validate =>
    cases validate with
    | false => simp [checkNode, enabledDefs]
    | true =>
      cases hd : dynPartsOk routeDyn d with
      | false =>
        simp only [checkNode, enabledDefs, Bool.not_true, Bool.false_eq_true, if_false,
          hd, Bool.not_false, if_true, if_pos]
        constructor
        · constructor
          · intro hcontra; cases hcontra
          · intro hall
            have := hall d (by simp)
            rw [hd] at this
            cases this
        · intro e he
          injection he with he
          exact ⟨d, by simp, hd, he.symm⟩
      | true =>
        have hspec := checkChildren_spec routeDyn routePath children
        simp only [checkNode, enabledDefs, Bool.not_true, Bool.false_eq_true, if_false,
          hd, Bool.not_false, if_true, if_pos]
        constructor
        · rw [hspec.1]
          constructor
          · intro hall d2 hd2
            rcases List.mem_cons.mp hd2 with h | h
            · subst h; exact hd
            · exact hall d2 h
          · intro hall d2 hd2
            exact hall d2 (List.mem_cons_of_mem _ hd2)
        · intro e he
          rcases hspec.2 e he with ⟨d2, hd2, hfail, hmsg⟩
          exact ⟨d2, List.mem_cons_of_mem _ hd2, hfail, hmsg⟩

theorem checkChildren_spec (routeDyn : List String) (routePath : String)
    (cs : List (String × FragmentNode)) :
    (checkChildren routeDyn routePath cs = none ↔
      ∀ d ∈ enabledDefsList cs, dynPartsOk routeDyn d = true)
    ∧ (∀ e, checkChildren routeDyn routePath cs = some e →
      ∃ d ∈ enabledDefsList cs, dynPartsOk routeDyn d = false
        ∧ e = validationMessage routeDyn routePath d) := by
  cases cs with
  | nil => simp [checkChildren, enabledDefsList]
  | cons c rest =>
    have hn := checkNode_spec routeDyn routePath c.2
    have hr := checkChildren_spec routeDyn routePath rest
    simp only [checkChildren, enabledDefsList]
    cases hc : checkNode routeDyn routePath c.2 with
    | some e =>
      constructor
      · constructor
        · intro hcontra; cases hcontra
        · intro hall
          rcases hn.2 e hc with ⟨d2, hd2, hfail, _⟩
          have := hall d2 (List.mem_append_left _ hd2)
          rw [hfail] at this
          cases this
      · intro e2 he2
        injection he2 with he2
        rcases hn.2 e hc with ⟨d2, hd2, hfail, hmsg⟩
        exact ⟨d2, List.mem_append_left _ hd2, hfail, he2 ▸ hmsg⟩
    | none =>
      have hnall := hn.1.mp hc
      constructor
      · rw [hr.1]
        constructor
        · intro hall d2 hd2
          rcases List.mem_append.mp hd2 with h | h
          · exact hnall d2 h
          · exact hall d2 h
        · intro hall d2 hd2
          exact hall d2 (List.mem_append_right _ hd2)
      · intro e2 he2
        rcases hr.2 e2 he2 with ⟨d2, hd2, hfail, hmsg⟩
        exact ⟨d2, List.mem_append_right _ hd2, hfail, hmsg⟩
end

theorem checkAll_spec (routeDyn : List String) (routePath : String)
    (ns : List FragmentNode) :
    (checkAll routeDyn routePath ns = none ↔
      ∀ d ∈ ns.flatMap enabledDefs, dynPartsOk routeDyn d = true)
    ∧ (∀ e, checkAll routeDyn routePath ns = some e →
      ∃ d ∈ ns.flatMap enabledDefs, dynPartsOk routeDyn d = false
        ∧ e = validationMessage routeDyn routePath d) := by
  induction ns with
  | nil => simp [checkAll]
  | cons n rest ih =>
    have hn := checkNode_spec routeDyn routePath n
    simp only [checkAll, List.flatMap_cons]
    cases hc : checkNode routeDyn routePath n with
    | some e =>
      constructor
      · constructor
        · intro hcontra; cases hcontra
        · intro hall
          rcases hn.2 e hc with ⟨d2, hd2, hfail, _⟩
          have := hall d2 (List.mem_append_left _ hd2)
          rw [hfail] at this
          cases this
      · intro e2 he2
        injection he2 with he2
        rcases hn.2 e hc with ⟨d2, hd2, hfail, hmsg⟩
        exact ⟨d2, List.mem_append_left _ hd2, hfail, he2 ▸ hmsg⟩
    | none =>
      have hnall := hn.1.mp hc
      constructor
      · rw [ih.1]
        constructor
        · intro hall d2 hd2
          rcases List.mem_append.mp hd2 with h | h
          · exact hnall d2 h
          · exact hall d2 h
        · intro hall d2 hd2
          exact hall d2 (List.mem_append_right _ hd2)
      · intro e2 he2
        rcases ih.2 e2 he2 with ⟨d2, hd2, hfail, hmsg⟩
        exact ⟨d2, List.mem_append_right _ hd2, hfail, hmsg⟩

/-- Claim C3: route validation fails exactly on a dynamic-segment-name
mismatch — it succeeds iff, for every validation-enabled definition of the
layout tree and the flat fragments, a dynamic route's dynamic-name set is
reused exactly and a static route sees only static paths; any reported error
is the message naming the mismatched fragment path with the "dynamic route" /
"static route" wording. -/
theorem route_validate_characterization (r : Route) (layout : FragmentNode)
    (fragments : List FragmentNode) :
    (validateRoute r layout fragments = none ↔
      ∀ d ∈ (layout :: fragments).flatMap enabledDefs,
        dynPartsOk (r.parts.filter (fun part => startsWithColon part)) d = true)
    ∧ (∀ e, validateRoute r layout fragments = some e →
      ∃ d ∈ (layout :: fragments).flatMap enabledDefs,
        dynPartsOk (r.parts.filter (fun part => startsWithColon part)) d = false
          ∧ e = validationMessage (r.parts.filter (fun part => startsWithColon part))
              r.Path d) :=
  checkAll_spec (r.parts.filter (fun part => startsWithColon part)) r.Path
    (layout :: fragments)

/-- Witness for C3, two vectors of `TestRoute_Validate`: the matching dynamic
tree on `/hello/:name` validates, and the mismatched layout
`/_viewproxy/hello/:login/layout` yields exactly the test's error message. -/
theorem route_validate_characterization_witness :
    validateRoute (newRoute "/hello/:name")
        (.node (Fragment.Define "/_viewproxy/hello/:name/layout") [] true)
        [.node (Fragment.Define "/_viewproxy/hello/:name/body") [] true] = none
    ∧ (∃ d ∈ ((FragmentNode.node (Fragment.Define "/_viewproxy/hello/:login/layout") [] true) ::
          [FragmentNode.node (Fragment.Define "/_viewproxy/hello/:name/body") [] true]).flatMap
            enabledDefs,
        dynPartsOk ((newRoute "/hello/:name").parts.filter
          (fun part => startsWithColon part)) d = false
          ∧ "dynamic route /hello/:name has mismatched fragment route /_viewproxy/hello/:login/layout"
            = validationMessage ((newRoute "/hello/:name").parts.filter
                (fun part => startsWithColon part)) (newRoute "/hello/:name").Path d) :=
  ⟨(route_validate_characterization (newRoute "/hello/:name")
      (.node (Fragment.Define "/_viewproxy/hello/:name/layout") [] true)
      [.node (Fragment.Define "/_viewproxy/hello/:name/body") [] true]).1.mpr (by decide),
   (route_validate_characterization (newRoute "/hello/:name")
      (.node (Fragment.Define "/_viewproxy/hello/:login/layout") [] true)
      [.node (Fragment.Define "/_viewproxy/hello/:name/body") [] true]).2 _ (by rfl)⟩

theorem sha256_ne_nil (m : List Nat) : Hmac.sha256 m ≠ [] := by
  simp [Hmac.sha256, Hmac.be32]

theorem hmacSha256_ne_nil (k m : List Nat) : Hmac.hmacSha256 k m ≠ [] := by
  simp only [Hmac.hmacSha256]
  exact sha256_ne_nil _

theorem hexEncode_ne_empty {bs : List Nat} (h : bs ≠ []) : Hmac.hexEncode bs ≠ "" := by
  cases bs with
  | nil => exact absurd rfl h
  | cons b rest =>
    intro hc
    have hdata := congrArg String.data hc
    simp [Hmac.hexEncode] at hdata

set_option maxRecDepth 100000 in
/-- Counterexample to C6 as stated: signing with the spec's query-including
canonical form `<path>?<rawQuery>,<timestamp>` over the outbound request of
`TestFragmentSendsVerifiableHmacWhenSet` (path `/foo`, forwarded query
`name=world`, the test's secret) fails the origin's verification, which
recomputes the MAC over the path and timestamp only. -/
theorem hmac_spec_form_fails_verification :
    originVerifies "6ccd9547b7042e0f1101ce68931d6b2c"
      (signOutboundSpecForm "6ccd9547b7042e0f1101ce68931d6b2c" "1700000000"
        { path := "/foo", rawQuery := "name=world", headers := [] }) = false := by
  decide

/-- Claim C6 (amended): with a shared HMAC secret configured, every outbound
fragment request carries the timestamp header and an `Authorization` header
holding the hex HMAC-SHA256, keyed by the secret, over the canonical byte
string `<path>,<timestamp>` — the outbound path and timestamp with the query
string excluded — so an origin recomputing that MAC verifies the header. -/
theorem hmac_path_timestamp_verifies (secret ts : String) (r : OutboundRequest)
    (hts : ts ≠ "") :
    List.lookup "X-Authorization-Time" (signOutbound secret ts r).headers = some ts
    ∧ List.lookup "Authorization" (signOutbound secret ts r).headers
      = some (Hmac.hexEncode (Hmac.hmacSha256 (strBytes secret)
          (strBytes (r.path ++ "," ++ ts))))
    ∧ originVerifies secret (signOutbound secret ts r) = true := by
  refine ⟨?_, ?_, ?_⟩
  · simp [signOutbound, List.lookup]
  · simp [signOutbound, List.lookup]
  · simp [originVerifies, signOutbound, List.lookup, hts,
      hexEncode_ne_empty (hmacSha256_ne_nil _ _)]

/-- Witness for C6 (amended) at the test's secret, a fixed timestamp and the
test's outbound request shape (path `/foo`, query `name=world`): both headers
are set and the origin's recomputation verifies. -/
theorem hmac_path_timestamp_verifies_witness :
    List.lookup "X-Authorization-Time"
        (signOutbound "6ccd9547b7042e0f1101ce68931d6b2c" "1700000000"
          { path := "/foo", rawQuery := "name=world", headers := [] }).headers
      = some "1700000000"
    ∧ List.lookup "Authorization"
        (signOutbound "6ccd9547b7042e0f1101ce68931d6b2c" "1700000000"
          { path := "/foo", rawQuery := "name=world", headers := [] }).headers
      = some (Hmac.hexEncode (Hmac.hmacSha256
          (strBytes "6ccd9547b7042e0f1101ce68931d6b2c")
          (strBytes (({ path := "/foo", rawQuery := "name=world", headers := [] }
            : OutboundRequest).path ++ "," ++ "1700000000"))))
    ∧ originVerifies "6ccd9547b7042e0f1101ce68931d6b2c"
        (signOutbound "6ccd9547b7042e0f1101ce68931d6b2c" "1700000000"
          { path := "/foo", rawQuery := "name=world", headers := [] }) = true :=
  hmac_path_timestamp_verifies "6ccd9547b7042e0f1101ce68931d6b2c" "1700000000"
    { path := "/foo", rawQuery := "name=world", headers := [] } (by decide)

end Viewproxy
